import Mathlib

/-!
Shallow embedding of the DNS message codec and per-request response logic
of `src/main.cpp` (a minimal DNS forwarding server), together with proofs
settling the specification's claims about it.

Buffers are modelled as `List Nat`; every element stands for one `uint8_t`
of the C++ buffer, so each read goes through `byteAt`, which truncates to a
byte (`% 256`) exactly as the `uint8_t` type does, and returns `0` for an
index beyond the list (the C++ code performs the out-of-bounds read with no
check; the model totalises it).  The C++ byte-level expressions
`(hi << 8) | lo` and `(x >> 8) & 0xFF` on byte operands are rendered as
`hi * 256 + lo` and `x / 256 % 256`, their arithmetic meaning on `Nat`.
The unbounded `while (true)` loop of `parseDomainName` is rendered with an
explicit fuel argument: `none` means the loop has not terminated within
`fuel` iterations.
-/

/-- Read one `uint8_t` from the buffer: `data[i]` in the C++ source.  The
source performs the read unconditionally (no bounds check anywhere in the
codec); the model returns `0` past the end of the list. -/
def byteAt (data : List Nat) (i : Nat) : Nat :=
  data.getD i 0 % 256

/-- Read `n` consecutive bytes starting at `pos`: the byte-copy loops of the
source (`for (i = 0; i < labelLen; i++) ...` and `rdata.assign(...)`). -/
def readBytes (data : List Nat) (pos : Nat) : Nat → List Nat
  | 0 => []
  | n + 1 => byteAt data pos :: readBytes data (pos + 1) n

/-- Read a big-endian `uint16_t`: `(data[i] << 8) | data[i+1]` in the source. -/
def read16 (data : List Nat) (i : Nat) : Nat :=
  byteAt data i * 256 + byteAt data (i + 1)

/-- Read a big-endian `uint32_t`: the four-byte TTL read of the source. -/
def read32 (data : List Nat) (i : Nat) : Nat :=
  byteAt data i * 2 ^ 24 + byteAt data (i + 1) * 2 ^ 16 +
    byteAt data (i + 2) * 256 + byteAt data (i + 3)

/-- The `DNSHeader` struct of `src/main.cpp`: six 16-bit fields.  Each field
is a `Nat` holding a `uint16_t` value. -/
structure DNSHeader where
  id : Nat
  flags : Nat
  qdcount : Nat
  ancount : Nat
  nscount : Nat
  arcount : Nat
deriving Repr, DecidableEq

namespace DNSHeader

/-- The static member `DNSHeader::parse` (src/main.cpp:148): reads six
big-endian 16-bit fields from bytes 0..11, unconditionally — the source
takes a raw `const uint8_t*` with no length parameter and no truncation
check of any kind. -/
def parse (data : List Nat) : DNSHeader where
  id := read16 data 0
  flags := read16 data 2
  qdcount := read16 data 4
  ancount := read16 data 6
  nscount := read16 data 8
  arcount := read16 data 10

/-- The accessor `DNSHeader::getOpcode` (src/main.cpp:192):
`(flags >> 11) & 0x0F`. -/
def getOpcode (h : DNSHeader) : Nat :=
  h.flags / 2 ^ 11 % 16

/-- The accessor `DNSHeader::getRD` (src/main.cpp:204): `(flags >> 8) & 0x01`. -/
def getRD (h : DNSHeader) : Nat :=
  h.flags / 2 ^ 8 % 2

/-- The member `DNSHeader::serialize` (src/main.cpp:221): twelve bytes, each
field written big-endian, high byte `(x >> 8) & 0xFF` first then `x & 0xFF`. -/
def serialize (h : DNSHeader) : List Nat :=
  [h.id / 256 % 256, h.id % 256,
   h.flags / 256 % 256, h.flags % 256,
   h.qdcount / 256 % 256, h.qdcount % 256,
   h.ancount / 256 % 256, h.ancount % 256,
   h.nscount / 256 % 256, h.nscount % 256,
   h.arcount / 256 % 256, h.arcount % 256]

end DNSHeader

/-- C6 — Header round-trip: for every `DNSHeader` whose six fields are
16-bit values, `DNSHeader.parse` applied to the 12-byte output of
`DNSHeader.serialize` returns a header with identical `id`, `flags`,
`qdcount`, `ancount`, `nscount` and `arcount`. -/
theorem c6_header_roundtrip (h : DNSHeader)
    (hid : h.id < 2 ^ 16) (hflags : h.flags < 2 ^ 16)
    (hqd : h.qdcount < 2 ^ 16) (han : h.ancount < 2 ^ 16)
    (hns : h.nscount < 2 ^ 16) (har : h.arcount < 2 ^ 16) :
    DNSHeader.parse (DNSHeader.serialize h) = h := by
  cases h with
  | mk id flags qdcount ancount nscount arcount =>
    simp only [DNSHeader.parse, DNSHeader.serialize, read16, byteAt,
      List.getD_cons_zero, List.getD_cons_succ, DNSHeader.mk.injEq] at *
    refine ⟨?_, ?_, ?_, ?_, ?_, ?_⟩ <;> omega

/-- Closed witness for `c6_header_roundtrip` at a concrete header. -/
theorem c6_header_roundtrip_witness :
    ((1234 : Nat) < 2 ^ 16 ∧ (33025 : Nat) < 2 ^ 16 ∧ (2 : Nat) < 2 ^ 16 ∧
      (2 : Nat) < 2 ^ 16 ∧ (0 : Nat) < 2 ^ 16 ∧ (65535 : Nat) < 2 ^ 16) ∧
    DNSHeader.parse (DNSHeader.serialize ⟨1234, 33025, 2, 2, 0, 65535⟩) =
      ⟨1234, 33025, 2, 2, 0, 65535⟩ :=
  ⟨by decide,
   c6_header_roundtrip ⟨1234, 33025, 2, 2, 0, 65535⟩
     (by decide) (by decide) (by decide) (by decide) (by decide) (by decide)⟩

/-- C7 — the claim says header decoding of a buffer shorter than 12 bytes
fails with `TruncatedInput`; the source `DNSHeader::parse` has no length
check and no failure path at all, so it "succeeds" on a 0-byte message,
reading the 12 bytes past the received data.  In the model those reads
yield the default byte `0` and parsing returns the all-zero header instead
of an error. -/
theorem c7_short_buffer_still_parses :
    DNSHeader.parse [] = ⟨0, 0, 0, 0, 0, 0⟩ ∧
    DNSHeader.parse [4, 210, 1] = ⟨1234, 256, 0, 0, 0, 0⟩ := by
  constructor <;> rfl

/-- Split the domain string at the first dot byte (46): the effect of one
iteration of `domain.find('.', start)` in `DNSQuestion::encodeDomainName`
(src/main.cpp:546).  Returns `none` when no dot remains (`npos`). -/
def splitFirstDot : List Nat → Option (List Nat × List Nat)
  | [] => none
  | b :: rest =>
    if b = 46 then some ([], rest)
    else
      match splitFirstDot rest with
      | some (label, tail) => some (b :: label, tail)
      | none => none

lemma splitFirstDot_length :
    ∀ s label rest, splitFirstDot s = some (label, rest) →
      rest.length < s.length := by
  intro s
  induction s with
  | nil => intro _ _ h; simp [splitFirstDot] at h
  | cons b tl ih =>
    intro label rest h
    by_cases hb : b = 46
    · simp only [splitFirstDot, if_pos hb, Option.some.injEq, Prod.mk.injEq] at h
      obtain ⟨-, h2⟩ := h
      subst h2
      simp only [List.length_cons]
      omega
    · simp only [splitFirstDot, if_neg hb] at h
      cases htl : splitFirstDot tl with
      | none => rw [htl] at h; simp at h
      | some p =>
        obtain ⟨l2, r2⟩ := p
        rw [htl] at h
        simp only [Option.some.injEq, Prod.mk.injEq] at h
        obtain ⟨-, h2⟩ := h
        subst h2
        have hlt := ih l2 r2 htl
        simp only [List.length_cons]
        omega

/-- The static member `DNSQuestion::encodeDomainName` (src/main.cpp:536):
repeatedly split at `.`, emit `static_cast<uint8_t>(labelLen)` followed by
the label bytes; for the final segment emit it only when nonempty
(`start < domain.length()`); terminate with a single `0x00`.  The source
performs no length check whatsoever — the `uint8_t` cast is the `% 256`. -/
def DNSQuestion.encodeDomainName (domain : List Nat) : List Nat :=
  match hsplit : splitFirstDot domain with
  | some (label, rest) =>
    (label.length % 256) :: (label.map (fun b => b % 256) ++
      DNSQuestion.encodeDomainName rest)
  | none =>
    if 0 < domain.length then
      (domain.length % 256) :: (domain.map (fun b => b % 256) ++ [0])
    else [0]
termination_by domain.length
decreasing_by exact splitFirstDot_length domain label rest hsplit

lemma encodeDomainName_split {domain label rest : List Nat}
    (h : splitFirstDot domain = some (label, rest)) :
    DNSQuestion.encodeDomainName domain =
      (label.length % 256) :: (label.map (fun b => b % 256) ++
        DNSQuestion.encodeDomainName rest) := by
  conv_lhs => rw [DNSQuestion.encodeDomainName]
  split
  · next l r heq =>
    rw [h] at heq
    simp only [Option.some.injEq, Prod.mk.injEq] at heq
    rw [heq.1, heq.2]
  · next heq => rw [h] at heq; cases heq

lemma encodeDomainName_last {domain : List Nat} (h : splitFirstDot domain = none) :
    DNSQuestion.encodeDomainName domain =
      if 0 < domain.length then
        (domain.length % 256) :: (domain.map (fun b => b % 256) ++ [0])
      else [0] := by
  conv_lhs => rw [DNSQuestion.encodeDomainName]
  split
  · next l r heq => rw [h] at heq; cases heq
  · rfl

set_option maxRecDepth 4000 in
/-- C8 — the claim says `encodeDomainName` fails with `LabelTooLong` on any
segment longer than 63 bytes; the source has no check and no failure path:
a 64-byte label is emitted behind the out-of-range length byte 64, and a
256-byte label is silently mis-encoded behind the length byte `256 % 256 = 0`
(the `static_cast<uint8_t>` truncation). -/
theorem c8_long_label_not_rejected :
    DNSQuestion.encodeDomainName (List.replicate 64 97) =
      64 :: (List.replicate 64 97 ++ [0]) ∧
    DNSQuestion.encodeDomainName (List.replicate 256 97) =
      0 :: (List.replicate 256 97 ++ [0]) := by
  have h64 : splitFirstDot (List.replicate 64 97) = none := by rfl
  have h256 : splitFirstDot (List.replicate 256 97) = none := by rfl
  constructor
  · rw [encodeDomainName_last h64]
    simp [List.map_replicate]
  · rw [encodeDomainName_last h256]
    simp [List.map_replicate]

/-- The `while (true)` loop body of `DNSQuestion::parseDomainName`
(src/main.cpp:429), with the loop's mutable state (`name`, `jumped`,
`jumpOffset`, `currentPos`) passed explicitly and an explicit fuel bound:
`none` means the loop has not finished within `fuel` iterations.  Branches,
in source order: a byte with both top bits set (`labelLen & 0xC0 == 0xC0`)
is a compression pointer — on the first one `jumpOffset` is recorded as
`currentPos + 2`, then the cursor jumps to `((labelLen & 0x3F) << 8) | next`;
a zero byte terminates the name; otherwise `labelLen` raw bytes are appended
(after a `'.'` separator when `name` is nonempty).  On exit the caller's
offset is `jumpOffset` when a pointer was followed, else one past the zero. -/
def DNSQuestion.parseDomainNameLoop (data : List Nat) (name : List Nat)
    (jumped : Bool) (jumpOffset : Nat) (currentPos : Nat) :
    Nat → Option (List Nat × Nat)
  | 0 => none
  | fuel + 1 =>
    let labelLen := byteAt data currentPos
    if labelLen &&& 0xC0 = 0xC0 then
      let jumpOffset2 := if jumped then jumpOffset else currentPos + 2
      let pointer := (labelLen &&& 0x3F) * 256 + byteAt data (currentPos + 1)
      DNSQuestion.parseDomainNameLoop data name true jumpOffset2 pointer fuel
    else if labelLen = 0 then
      some (name, if jumped then jumpOffset else currentPos + 1)
    else
      let name2 := (if name.isEmpty then name else name ++ [46]) ++
        readBytes data (currentPos + 1) labelLen
      DNSQuestion.parseDomainNameLoop data name2 jumped jumpOffset
        (currentPos + 1 + labelLen) fuel

/-- The static member `DNSQuestion::parseDomainName` (src/main.cpp:429):
runs the loop from `offset` with empty name, `jumped = false`,
`jumpOffset = 0`.  Returns the decoded name and the updated caller offset. -/
def DNSQuestion.parseDomainName (data : List Nat) (offset : Nat)
    (fuel : Nat) : Option (List Nat × Nat) :=
  DNSQuestion.parseDomainNameLoop data [] false 0 offset fuel

lemma c3_loop_aux :
    ∀ fuel name jumpOffset,
      DNSQuestion.parseDomainNameLoop [192, 0] name true jumpOffset 0 fuel =
        none := by
  intro fuel
  induction fuel with
  | zero => intro name jumpOffset; rfl
  | succ n ih =>
    intro name jumpOffset
    show DNSQuestion.parseDomainNameLoop [192, 0] name true jumpOffset 0 (n + 1) = none
    rw [DNSQuestion.parseDomainNameLoop]
    norm_num [byteAt]
    exact ih name jumpOffset

/-- C3 — the claim says a compression pointer whose target is at or after
the pointer itself (or a pointer cycle) makes `parseDomainName` fail with
`MalformedPointer`; the source has no such guard and no error path at all:
on the two-byte buffer `[0xC0, 0x00]` — a pointer at offset 0 targeting
offset 0 — the `while (true)` loop jumps back to its own position forever.
In the fuel model, decoding returns `none` (the loop has not terminated)
for every fuel bound. -/
theorem c3_pointer_loop_diverges :
    ∀ fuel, DNSQuestion.parseDomainName [192, 0] 0 fuel = none := by
  intro fuel
  cases fuel with
  | zero => rfl
  | succ n =>
    show DNSQuestion.parseDomainNameLoop [192, 0] [] false 0 0 (n + 1) = none
    rw [DNSQuestion.parseDomainNameLoop]
    norm_num [byteAt]
    exact c3_loop_aux n [] 2

/-- Trailing part of a dot-joined name: a leading dot then the label, for
each further label.  Statement-level helper for phrasing C1 and C2. -/
def dotJoinTail : List (List Nat) → List Nat
  | [] => []
  | l :: ls => 46 :: (l ++ dotJoinTail ls)

/-- Dot-joined byte string of a list of labels: the claim's "domain name
composed of dot-joined labels". -/
def joinDots : List (List Nat) → List Nat
  | [] => []
  | l :: ls => l ++ dotJoinTail ls

/-- RFC 1035 wire form of a label list: each label behind its length byte,
then the terminating zero byte. -/
def encLabels : List (List Nat) → List Nat
  | [] => [0]
  | l :: ls => l.length :: (l ++ encLabels ls)

/-- The claim's hypothesis on one label: 1 to 63 bytes, ASCII, and (so that
the dot-join is unambiguous) no dot byte inside the label. -/
def ValidLabel (l : List Nat) : Prop :=
  1 ≤ l.length ∧ l.length ≤ 63 ∧ ∀ b ∈ l, b < 128 ∧ b ≠ 46

instance (l : List Nat) : Decidable (ValidLabel l) := by
  unfold ValidLabel; infer_instance

lemma splitFirstDot_of_no_dot :
    ∀ l : List Nat, (∀ b ∈ l, b ≠ 46) → splitFirstDot l = none := by
  intro l
  induction l with
  | nil => intro _; rfl
  | cons b tl ih =>
    intro h
    have hb : b ≠ 46 := h b (by simp)
    rw [splitFirstDot, if_neg hb, ih (fun x hx => h x (by simp [hx]))]

lemma splitFirstDot_append (l r : List Nat) (h : ∀ b ∈ l, b ≠ 46) :
    splitFirstDot (l ++ 46 :: r) = some (l, r) := by
  induction l with
  | nil => simp [splitFirstDot]
  | cons b tl ih =>
    have hb : b ≠ 46 := h b (by simp)
    rw [List.cons_append, splitFirstDot, if_neg hb,
      ih (fun x hx => h x (by simp [hx]))]

lemma map_mod_of_bytes (l : List Nat) (h : ∀ b ∈ l, b < 256) :
    l.map (fun b => b % 256) = l := by
  conv_rhs => rw [← List.map_id l]
  exact List.map_congr_left (fun a ha => Nat.mod_eq_of_lt (h a ha))

lemma enc_join :
    ∀ labels : List (List Nat), (∀ l ∈ labels, ValidLabel l) →
      DNSQuestion.encodeDomainName (joinDots labels) = encLabels labels := by
  intro labels
  induction labels with
  | nil =>
    intro _
    show DNSQuestion.encodeDomainName [] = encLabels []
    rw [encodeDomainName_last (show splitFirstDot [] = none from rfl)]
    rfl
  | cons l ls ih =>
    intro hv
    obtain ⟨h1, h63, hbytes⟩ := hv l (by simp)
    have hnodot : ∀ b ∈ l, b ≠ 46 := fun b hb => (hbytes b hb).2
    have hmap : l.map (fun b => b % 256) = l :=
      map_mod_of_bytes l (fun b hb => lt_trans (hbytes b hb).1 (by norm_num))
    have hlen : l.length % 256 = l.length := Nat.mod_eq_of_lt (by omega)
    cases ls with
    | nil =>
      have : joinDots [l] = l := by simp [joinDots, dotJoinTail]
      rw [this, encodeDomainName_last (splitFirstDot_of_no_dot l hnodot),
        if_pos (by omega), hmap, hlen]
      rfl
    | cons l2 ls2 =>
      have hjoin : joinDots (l :: l2 :: ls2) = l ++ 46 :: joinDots (l2 :: ls2) := by
        simp [joinDots, dotJoinTail]
      rw [hjoin, encodeDomainName_split (splitFirstDot_append l _ hnodot),
        hmap, hlen, ih (fun x hx => hv x (by simp [hx]))]
      rfl

/-- The successive values of the loop variable `name`: starting from `name`,
each label is appended behind a `'.'` separator unless `name` is still
empty. -/
def appendName (name : List Nat) : List (List Nat) → List Nat
  | [] => name
  | l :: ls => appendName ((if name.isEmpty then name else name ++ [46]) ++ l) ls

lemma appendName_of_ne :
    ∀ (ls : List (List Nat)) (name : List Nat), name ≠ [] →
      appendName name ls = name ++ dotJoinTail ls := by
  intro ls
  induction ls with
  | nil => intro name _; simp [appendName, dotJoinTail]
  | cons l tl ih =>
    intro name hname
    rw [appendName, if_neg (by simpa [List.isEmpty_iff] using hname)]
    rw [ih (name ++ [46] ++ l) (by simp), dotJoinTail]
    simp

lemma appendName_nil (labels : List (List Nat))
    (h : ∀ l ∈ labels, l ≠ []) :
    appendName [] labels = joinDots labels := by
  cases labels with
  | nil => rfl
  | cons l ls =>
    rw [appendName, joinDots]
    simp only [List.isEmpty_nil, if_pos rfl, List.nil_append]
    exact appendName_of_ne ls l (h l (by simp))

lemma byteAt_of_drop {data : List Nat} {pos b : Nat} {tl : List Nat}
    (h : data.drop pos = b :: tl) : byteAt data pos = b % 256 := by
  have hb : data[pos]? = some b := by
    have := List.getElem?_drop data pos 0
    rw [h] at this
    simpa using this.symm
  simp [byteAt, List.getD_eq_getElem?_getD, hb]

lemma drop_succ_of_drop {data : List Nat} {pos b : Nat} {tl : List Nat}
    (h : data.drop pos = b :: tl) : data.drop (pos + 1) = tl := by
  have := List.drop_drop 1 pos data
  rw [h] at this
  simpa using this.symm

lemma readBytes_of_drop :
    ∀ (l data tl : List Nat) (pos : Nat),
      data.drop pos = l ++ tl → (∀ b ∈ l, b < 256) →
      readBytes data pos l.length = l := by
  intro l
  induction l with
  | nil => intros; rfl
  | cons b bs ih =>
    intro data tl pos h hb
    rw [List.cons_append] at h
    show byteAt data pos :: readBytes data (pos + 1) bs.length = b :: bs
    rw [byteAt_of_drop h, Nat.mod_eq_of_lt (hb b (by simp)),
      ih data tl (pos + 1) (drop_succ_of_drop h) (fun x hx => hb x (by simp [hx]))]

lemma small_not_pointer : ∀ n < 64, ¬ (n &&& 192 = 192) := by decide

lemma parseLoop_encLabels :
    ∀ (labels : List (List Nat)) (data name : List Nat) (jo pos : Nat),
      data.drop pos = encLabels labels →
      (∀ l ∈ labels, ValidLabel l) →
      DNSQuestion.parseDomainNameLoop data name false jo pos (labels.length + 1) =
        some (appendName name labels, pos + (encLabels labels).length) := by
  intro labels
  induction labels with
  | nil =>
    intro data name jo pos hdrop _
    rw [encLabels] at hdrop
    have hbyte : byteAt data pos = 0 := by simpa using byteAt_of_drop hdrop
    rw [DNSQuestion.parseDomainNameLoop]
    simp [hbyte, appendName, encLabels]
  | cons l ls ih =>
    intro data name jo pos hdrop hv
    obtain ⟨h1, h63, hbytes⟩ := hv l (by simp)
    rw [encLabels] at hdrop
    have hbyte : byteAt data pos = l.length := by
      rw [byteAt_of_drop hdrop]
      exact Nat.mod_eq_of_lt (by omega)
    have hdrop1 : data.drop (pos + 1) = l ++ encLabels ls := drop_succ_of_drop hdrop
    have hread : readBytes data (pos + 1) l.length = l :=
      readBytes_of_drop l data (encLabels ls) (pos + 1) hdrop1
        (fun b hb => lt_trans (hbytes b hb).1 (by norm_num))
    have hdrop2 : data.drop (pos + 1 + l.length) = encLabels ls := by
      have := List.drop_drop l.length (pos + 1) data
      rw [hdrop1, List.drop_left] at this
      rw [← this]
    have hc1 : ¬ (l.length &&& 192 = 192) := small_not_pointer l.length (by omega)
    have hc2 : ¬ (l.length = 0) := by omega
    show DNSQuestion.parseDomainNameLoop data name false jo pos (ls.length + 1 + 1) = _
    rw [DNSQuestion.parseDomainNameLoop]
    simp only [hbyte, if_neg hc1, if_neg hc2, hread]
    rw [ih data _ jo (pos + 1 + l.length) hdrop2 (fun x hx => hv x (by simp [hx]))]
    rw [appendName]
    have hlen2 : pos + 1 + l.length + (encLabels ls).length =
        pos + (encLabels (l :: ls)).length := by
      simp only [encLabels, List.length_cons, List.length_append]
      omega
    rw [hlen2]

/-- C1 — Name codec round-trip: for every domain name given as dot-joined
labels, each 1 to 63 bytes of dot-free ASCII, decoding (at offset 0 with
empty initial state, i.e. `DNSQuestion.parseDomainName`) the byte sequence
produced by `DNSQuestion.encodeDomainName` terminates and yields exactly the
original name, with the final offset equal to the encoded length. -/
theorem c1_name_roundtrip (labels : List (List Nat))
    (h : ∀ l ∈ labels, ValidLabel l) :
    DNSQuestion.parseDomainName
        (DNSQuestion.encodeDomainName (joinDots labels)) 0 (labels.length + 1) =
      some (joinDots labels,
        (DNSQuestion.encodeDomainName (joinDots labels)).length) := by
  rw [DNSQuestion.parseDomainName, enc_join labels h]
  rw [parseLoop_encLabels labels (encLabels labels) [] 0 0 (by simp) h]
  rw [appendName_nil labels
    (fun l hl => by have := (h l hl).1; intro hnil; simp [hnil] at this)]
  simp

/-- Closed witness for `c1_name_roundtrip`: the name "ab.c". -/
theorem c1_name_roundtrip_witness :
    (∀ l ∈ [[97, 98], [99]], ValidLabel l) ∧
    DNSQuestion.parseDomainName
        (DNSQuestion.encodeDomainName (joinDots [[97, 98], [99]])) 0
        ([[97, 98], [99]].length + 1) =
      some (joinDots [[97, 98], [99]],
        (DNSQuestion.encodeDomainName (joinDots [[97, 98], [99]])).length) :=
  ⟨by decide, c1_name_roundtrip [[97, 98], [99]] (by decide)⟩

lemma parseLoop_jumped_ret :
    ∀ (fuel : Nat) (data name : List Nat) (jo pos : Nat)
      (res : List Nat × Nat),
      DNSQuestion.parseDomainNameLoop data name true jo pos fuel = some res →
      res.2 = jo := by
  intro fuel
  induction fuel with
  | zero => intro data name jo pos res h; cases h
  | succ n ih =>
    intro data name jo pos res h
    rw [DNSQuestion.parseDomainNameLoop] at h
    by_cases hp : byteAt data pos &&& 192 = 192
    · simp only [if_pos hp, if_true] at h
      exact ih data name jo _ res h
    · simp only [if_neg hp] at h
      by_cases hz : byteAt data pos = 0
      · simp only [if_pos hz] at h
        cases h
        rfl
      · simp only [if_neg hz] at h
        exact ih data _ jo _ res h

/-- Position of the first "event" the name-decoding loop meets when walking
labels forward from `pos` without following any pointer: `Sum.inl p` when a
compression pointer starts at buffer position `p`, `Sum.inr e` when `e` is
the position just past the terminating zero byte.  This is the spec's
phrasing of the final cursor value ("`resumeOffset` — the position of the
first pointer plus 2 — if any pointer was followed, else the position just
past the terminating zero byte") turned into a function for stating C2. -/
def firstEvent (data : List Nat) (pos : Nat) : Nat → Option (Sum Nat Nat)
  | 0 => none
  | fuel + 1 =>
    let b := byteAt data pos
    if b &&& 0xC0 = 0xC0 then some (Sum.inl pos)
    else if b = 0 then some (Sum.inr (pos + 1))
    else firstEvent data (pos + 1 + b) fuel

lemma parseLoop_ret_firstEvent :
    ∀ (fuel : Nat) (data name : List Nat) (jo pos : Nat)
      (res : List Nat × Nat),
      DNSQuestion.parseDomainNameLoop data name false jo pos fuel = some res →
      (match firstEvent data pos fuel with
       | some (Sum.inl p) => res.2 = p + 2
       | some (Sum.inr e) => res.2 = e
       | none => False) := by
  intro fuel
  induction fuel with
  | zero => intro data name jo pos res h; cases h
  | succ n ih =>
    intro data name jo pos res h
    rw [DNSQuestion.parseDomainNameLoop] at h
    rw [firstEvent]
    by_cases hp : byteAt data pos &&& 192 = 192
    · simp only [if_pos hp, if_false] at h ⊢
      exact parseLoop_jumped_ret n data name (pos + 2) _ res h
    · simp only [if_neg hp] at h ⊢
      by_cases hz : byteAt data pos = 0
      · simp only [if_pos hz] at h ⊢
        cases h
        rfl
      · simp only [if_neg hz] at h ⊢
        exact ih data _ jo (pos + 1 + byteAt data pos) res h

/-- C2 — Compression-pointer cursor invariant.  General part: whenever the
name-decoding loop (started as `parseDomainName` starts it) returns, the
caller's offset is the position of the first compression pointer
encountered plus 2 when a pointer was followed, and the position just past
the terminating zero byte otherwise (`firstEvent` names that position).
Concrete part, exactly the claim's instance: in a buffer holding
"codecrafters.io" fully spelled at offset 12 and the bytes
`[3, 'a', 'b', 'c', 0xC0, 0x0C]` at offset 33, decoding at offset 33 yields
"abc.codecrafters.io" and the caller's offset advances by exactly 6
(from 33 to 39). -/
theorem c2_cursor_invariant :
    (∀ (data : List Nat) (pos fuel : Nat) (name : List Nat) (ret : Nat),
      DNSQuestion.parseDomainName data pos fuel = some (name, ret) →
      (match firstEvent data pos fuel with
       | some (Sum.inl p) => ret = p + 2
       | some (Sum.inr e) => ret = e
       | none => False)) ∧
    DNSQuestion.parseDomainName
        [0, 0, 0, 0, 0, 0, 0, 0, 0, 0, 0, 0,
         12, 99, 111, 100, 101, 99, 114, 97, 102, 116, 101, 114, 115,
         2, 105, 111, 0, 0, 1, 0, 1, 3, 97, 98, 99, 192, 12] 33 5 =
      some ([97, 98, 99, 46, 99, 111, 100, 101, 99, 114, 97, 102, 116, 101,
             114, 115, 46, 105, 111], 39) := by
  constructor
  · intro data pos fuel name ret h
    exact parseLoop_ret_firstEvent fuel data [] 0 pos (name, ret) h
  · rfl

/-- Closed witness for the general part of `c2_cursor_invariant`,
instantiated on the single-byte buffer `[0]` (a bare terminating zero). -/
theorem c2_cursor_invariant_witness :
    DNSQuestion.parseDomainName [0] 0 1 = some ([], 1) ∧
    (match firstEvent [0] 0 1 with
     | some (Sum.inl p) => 1 = p + 2
     | some (Sum.inr e) => 1 = e
     | none => False) :=
  ⟨rfl, c2_cursor_invariant.1 [0] 0 1 [] 1 rfl⟩

/-- The `DNSQuestion` struct of `src/main.cpp` (src/main.cpp:291): a domain
name (byte string), a 16-bit record type and a 16-bit class. -/
structure DNSQuestion where
  name : List Nat
  type : Nat
  qclass : Nat
deriving Repr, DecidableEq

/-- The static member `DNSQuestion::parse` (src/main.cpp:356): decode the
(possibly compressed) name, then two big-endian 16-bit reads (TYPE, CLASS),
the cursor advancing by 2 after each. -/
def DNSQuestion.parse (data : List Nat) (offset : Nat) (fuel : Nat) :
    Option (DNSQuestion × Nat) :=
  match DNSQuestion.parseDomainName data offset fuel with
  | none => none
  | some (nm, off1) =>
    some ({ name := nm, type := read16 data off1,
            qclass := read16 data (off1 + 2) }, off1 + 4)

/-- The member `DNSQuestion::serialize` (src/main.cpp:592): encoded name,
then TYPE and CLASS big-endian. -/
def DNSQuestion.serialize (q : DNSQuestion) : List Nat :=
  DNSQuestion.encodeDomainName q.name ++
    [q.type / 256 % 256, q.type % 256, q.qclass / 256 % 256, q.qclass % 256]

/-- The `DNSAnswer` struct of `src/main.cpp` (src/main.cpp:638): a resource
record with explicit `rdlength` alongside the `rdata` bytes. -/
structure DNSAnswer where
  name : List Nat
  type : Nat
  aclass : Nat
  ttl : Nat
  rdlength : Nat
  rdata : List Nat
deriving Repr, DecidableEq

/-- The static member `DNSAnswer::parse` (src/main.cpp:654): name, TYPE,
CLASS, 32-bit TTL, RDLENGTH, then exactly `rdlength` bytes copied into
`rdata` (`rdata.assign(data + offset, data + offset + rdlength)`). -/
def DNSAnswer.parse (data : List Nat) (offset : Nat) (fuel : Nat) :
    Option (DNSAnswer × Nat) :=
  match DNSQuestion.parseDomainName data offset fuel with
  | none => none
  | some (nm, off1) =>
    let rdlength := read16 data (off1 + 8)
    some ({ name := nm, type := read16 data off1,
            aclass := read16 data (off1 + 2), ttl := read32 data (off1 + 4),
            rdlength := rdlength,
            rdata := readBytes data (off1 + 10) rdlength }, off1 + 10 + rdlength)

/-- The member `DNSAnswer::serialize` (src/main.cpp:690): encoded name,
TYPE, CLASS, TTL (4 bytes), RDLENGTH (2 bytes), then the `rdata` bytes. -/
def DNSAnswer.serialize (a : DNSAnswer) : List Nat :=
  DNSQuestion.encodeDomainName a.name ++
    [a.type / 256 % 256, a.type % 256,
     a.aclass / 256 % 256, a.aclass % 256,
     a.ttl / 2 ^ 24 % 256, a.ttl / 2 ^ 16 % 256, a.ttl / 256 % 256, a.ttl % 256,
     a.rdlength / 256 % 256, a.rdlength % 256] ++ a.rdata

/-- The `DNSMessage` struct of `src/main.cpp` (src/main.cpp:731): one
header, the question list and the answer list. -/
structure DNSMessage where
  header : DNSHeader
  questions : List DNSQuestion
  answers : List DNSAnswer
deriving Repr, DecidableEq

/-- The question-parsing loop of the main receive loop (src/main.cpp:1150):
parse `count` questions sequentially, threading the running offset. -/
def parseQuestions (data : List Nat) (fuel : Nat) (offset : Nat) :
    Nat → Option (List DNSQuestion × Nat)
  | 0 => some ([], offset)
  | count + 1 =>
    match DNSQuestion.parse data offset fuel with
    | none => none
    | some (q, off1) =>
      match parseQuestions data fuel off1 count with
      | none => none
      | some (qs, off2) => some (q :: qs, off2)

/-- The fixed answer of the no-resolver branch (src/main.cpp:1212): type A,
class IN, TTL 60 seconds, `rdata = 8.8.8.8`. -/
def stubAnswer (q : DNSQuestion) : DNSAnswer where
  name := q.name
  type := 1
  aclass := 1
  ttl := 60
  rdlength := 4
  rdata := [8, 8, 8, 8]

/-- The response construction of the main loop (src/main.cpp:1160-1221),
given the parsed request header and questions.  `resolver` abstracts
`forwardQuery` (a blocking network round-trip): `none` is the no-resolver
configuration, `some f` a configured upstream whose answer to question `q`
is `f q`.  Flags are assembled as in the source —
`(qr<<15)|(opcode<<11)|(aa<<10)|(tc<<9)|(rd<<8)|(ra<<7)|(z<<4)|rcode` with
`qr = 1`, `opcode` and `rd` copied from the request,
`rcode = 0` if the request opcode is `0` else `4`, all other bits zero.
Each response question takes the request question's name with `type = 1`
and `qclass = 1` (hardcoded in the source); `qdcount` and `ancount` are
`requestQuestions.size()` truncated to `uint16_t`. -/
def buildResponse (requestHeader : DNSHeader)
    (requestQuestions : List DNSQuestion)
    (resolver : Option (DNSQuestion → DNSAnswer)) : DNSMessage :=
  let requestOpcode := requestHeader.getOpcode
  let requestRD := requestHeader.getRD
  let rcode : Nat := if requestOpcode = 0 then 0 else 4
  { header :=
      { id := requestHeader.id
        flags := 1 * 2 ^ 15 + requestOpcode * 2 ^ 11 + 0 * 2 ^ 10 + 0 * 2 ^ 9 +
          requestRD * 2 ^ 8 + 0 * 2 ^ 7 + 0 * 2 ^ 4 + rcode
        qdcount := requestQuestions.length % 2 ^ 16
        ancount := requestQuestions.length % 2 ^ 16
        nscount := 0
        arcount := 0 }
    questions := requestQuestions.map fun q =>
      { name := q.name, type := 1, qclass := 1 }
    answers := requestQuestions.map fun q =>
      match resolver with
      | some f => f q
      | none => stubAnswer q }

/-- One iteration of the main receive loop (src/main.cpp:1142-1224), up to
serialization: parse the header, parse `qdcount` questions starting at
offset 12, build the response.  `none` when the name-decoding loop inside
some question does not terminate within `fuel` iterations. -/
def processDatagram (data : List Nat)
    (resolver : Option (DNSQuestion → DNSAnswer)) (fuel : Nat) :
    Option DNSMessage :=
  match parseQuestions data fuel 12 (DNSHeader.parse data).qdcount with
  | none => none
  | some (qs, _) => some (buildResponse (DNSHeader.parse data) qs resolver)

lemma byteAt_lt (data : List Nat) (i : Nat) : byteAt data i < 256 :=
  Nat.mod_lt _ (by norm_num)

lemma read16_lt (data : List Nat) (i : Nat) : read16 data i < 2 ^ 16 := by
  have h1 := byteAt_lt data i
  have h2 := byteAt_lt data (i + 1)
  unfold read16
  omega

lemma readBytes_length (data : List Nat) :
    ∀ (n pos : Nat), (readBytes data pos n).length = n := by
  intro n
  induction n with
  | zero => intro pos; rfl
  | succ m ih => intro pos; simp [readBytes, ih]

lemma parseQuestions_length :
    ∀ (count : Nat) (data : List Nat) (fuel offset : Nat)
      (qs : List DNSQuestion) (off : Nat),
      parseQuestions data fuel offset count = some (qs, off) →
      qs.length = count := by
  intro count
  induction count with
  | zero =>
    intro data fuel offset qs off h
    rw [parseQuestions] at h
    simp only [Option.some.injEq, Prod.mk.injEq] at h
    rw [← h.1]
    rfl
  | succ n ih =>
    intro data fuel offset qs off h
    rw [parseQuestions] at h
    cases h1 : DNSQuestion.parse data offset fuel with
    | none => rw [h1] at h; cases h
    | some p1 =>
      obtain ⟨q, off1⟩ := p1
      simp only [h1] at h
      cases h2 : parseQuestions data fuel off1 n with
      | none => simp only [h2] at h; cases h
      | some p2 =>
        obtain ⟨qs2, off2⟩ := p2
        simp only [h2, Option.some.injEq, Prod.mk.injEq] at h
        rw [← h.1, List.length_cons, ih data fuel off1 qs2 off2 h2]

lemma flags_fields (o rd rc : Nat) (ho : o < 16) (hrd : rd < 2)
    (hrc : rc < 16) :
    (1 * 2 ^ 15 + o * 2 ^ 11 + 0 * 2 ^ 10 + 0 * 2 ^ 9 + rd * 2 ^ 8 +
        0 * 2 ^ 7 + 0 * 2 ^ 4 + rc) / 2 ^ 15 % 2 = 1 ∧
    (1 * 2 ^ 15 + o * 2 ^ 11 + 0 * 2 ^ 10 + 0 * 2 ^ 9 + rd * 2 ^ 8 +
        0 * 2 ^ 7 + 0 * 2 ^ 4 + rc) / 2 ^ 11 % 16 = o ∧
    (1 * 2 ^ 15 + o * 2 ^ 11 + 0 * 2 ^ 10 + 0 * 2 ^ 9 + rd * 2 ^ 8 +
        0 * 2 ^ 7 + 0 * 2 ^ 4 + rc) % 16 = rc ∧
    (1 * 2 ^ 15 + o * 2 ^ 11 + 0 * 2 ^ 10 + 0 * 2 ^ 9 + rd * 2 ^ 8 +
        0 * 2 ^ 7 + 0 * 2 ^ 4 + rc) / 2 ^ 8 % 2 = rd := by
  refine ⟨?_, ?_, ?_, ?_⟩ <;> · norm_num; omega

/-- C4 — Response header merge policy: whenever the main loop successfully
processes a request datagram, the response header has the request's `id`,
the QR bit (bit 15 of `flags`) set to 1, the opcode field (bits 11-14)
copied from the request, the rcode field (bits 0-3) equal to 0 when the
request opcode is 0 and 4 otherwise, the RD bit (bit 8) copied from the
request, and `qdcount` and `ancount` both equal to the number of questions
parsed from the request (the length of the echoed question list, which is
the request header's `qdcount`). -/
theorem c4_response_header_merge (data : List Nat)
    (resolver : Option (DNSQuestion → DNSAnswer)) (fuel : Nat)
    (resp : DNSMessage) (h : processDatagram data resolver fuel = some resp) :
    resp.header.id = (DNSHeader.parse data).id ∧
    resp.header.flags / 2 ^ 15 % 2 = 1 ∧
    resp.header.flags / 2 ^ 11 % 16 = (DNSHeader.parse data).getOpcode ∧
    resp.header.flags % 16 =
      (if (DNSHeader.parse data).getOpcode = 0 then 0 else 4) ∧
    resp.header.flags / 2 ^ 8 % 2 = (DNSHeader.parse data).getRD ∧
    resp.header.qdcount = resp.questions.length ∧
    resp.header.ancount = resp.questions.length ∧
    resp.questions.length = (DNSHeader.parse data).qdcount := by
  unfold processDatagram at h
  cases hq : parseQuestions data fuel 12 (DNSHeader.parse data).qdcount with
  | none => rw [hq] at h; cases h
  | some p =>
    obtain ⟨qs, off⟩ := p
    simp only [hq, Option.some.injEq] at h
    subst h
    have hqlen : qs.length = (DNSHeader.parse data).qdcount :=
      parseQuestions_length _ data fuel 12 qs off hq
    have hqd : (DNSHeader.parse data).qdcount < 2 ^ 16 := read16_lt data 4
    have ho : (DNSHeader.parse data).getOpcode < 16 :=
      Nat.mod_lt _ (by norm_num)
    have hrd : (DNSHeader.parse data).getRD < 2 := Nat.mod_lt _ (by norm_num)
    have hrc : (if (DNSHeader.parse data).getOpcode = 0 then 0 else 4) < 16 := by
      split <;> norm_num
    obtain ⟨f1, f2, f3, f4⟩ :=
      flags_fields (DNSHeader.parse data).getOpcode (DNSHeader.parse data).getRD
        (if (DNSHeader.parse data).getOpcode = 0 then 0 else 4) ho hrd hrc
    refine ⟨rfl, f1, f2, f3, f4, ?_, ?_, ?_⟩ <;>
      simp [buildResponse, hqlen, Nat.mod_eq_of_lt hqd] <;> omega

/-- Closed witness for `c4_response_header_merge` on an all-zero 12-byte
datagram (a zero-question standard query). -/
theorem c4_response_header_merge_witness :
    processDatagram (List.replicate 12 0) none 1 =
      some ⟨⟨0, 32768, 0, 0, 0, 0⟩, [], []⟩ ∧
    ((⟨⟨0, 32768, 0, 0, 0, 0⟩, [], []⟩ : DNSMessage).header.id =
        (DNSHeader.parse (List.replicate 12 0)).id ∧
      (⟨⟨0, 32768, 0, 0, 0, 0⟩, [], []⟩ : DNSMessage).header.flags / 2 ^ 15 % 2 = 1 ∧
      (⟨⟨0, 32768, 0, 0, 0, 0⟩, [], []⟩ : DNSMessage).header.flags / 2 ^ 11 % 16 =
        (DNSHeader.parse (List.replicate 12 0)).getOpcode ∧
      (⟨⟨0, 32768, 0, 0, 0, 0⟩, [], []⟩ : DNSMessage).header.flags % 16 =
        (if (DNSHeader.parse (List.replicate 12 0)).getOpcode = 0 then 0 else 4) ∧
      (⟨⟨0, 32768, 0, 0, 0, 0⟩, [], []⟩ : DNSMessage).header.flags / 2 ^ 8 % 2 =
        (DNSHeader.parse (List.replicate 12 0)).getRD ∧
      (⟨⟨0, 32768, 0, 0, 0, 0⟩, [], []⟩ : DNSMessage).header.qdcount =
        (⟨⟨0, 32768, 0, 0, 0, 0⟩, [], []⟩ : DNSMessage).questions.length ∧
      (⟨⟨0, 32768, 0, 0, 0, 0⟩, [], []⟩ : DNSMessage).header.ancount =
        (⟨⟨0, 32768, 0, 0, 0, 0⟩, [], []⟩ : DNSMessage).questions.length ∧
      (⟨⟨0, 32768, 0, 0, 0, 0⟩, [], []⟩ : DNSMessage).questions.length =
        (DNSHeader.parse (List.replicate 12 0)).qdcount) :=
  ⟨rfl, c4_response_header_merge (List.replicate 12 0) none 1 _ rfl⟩

/-- C5 counterexample — the claim says each response question equals the
original question verbatim (same name, same type, same class); the source
hardcodes `type = 1` and `qclass = 1` (src/main.cpp:1197).  On a request
whose single question "a" has TYPE 2, CLASS 3, the parsed request question
is `⟨"a", 2, 3⟩` but the response echoes `⟨"a", 1, 1⟩`, which differs. -/
theorem c5_type_class_not_echoed :
    parseQuestions [0, 0, 0, 0, 0, 1, 0, 0, 0, 0, 0, 0, 1, 97, 0, 0, 2, 0, 3]
        5 12
        (DNSHeader.parse
          [0, 0, 0, 0, 0, 1, 0, 0, 0, 0, 0, 0, 1, 97, 0, 0, 2, 0, 3]).qdcount =
      some ([⟨[97], 2, 3⟩], 19) ∧
    (processDatagram [0, 0, 0, 0, 0, 1, 0, 0, 0, 0, 0, 0, 1, 97, 0, 0, 2, 0, 3]
        none 5).map DNSMessage.questions = some [⟨[97], 1, 1⟩] ∧
    (⟨[97], 1, 1⟩ : DNSQuestion) ≠ ⟨[97], 2, 3⟩ :=
  ⟨rfl, rfl, by decide⟩

/-- C5 (amended) — Question echo, as the code actually behaves: the
response's Question section has one entry per parsed request question, in
the same order, carrying the original question's name, but with `type` and
`qclass` both set to 1 (A/IN) regardless of the request's values. -/
theorem c5_question_echo_amended (data : List Nat)
    (resolver : Option (DNSQuestion → DNSAnswer)) (fuel : Nat)
    (qs : List DNSQuestion) (off : Nat) (resp : DNSMessage)
    (hq : parseQuestions data fuel 12 (DNSHeader.parse data).qdcount =
      some (qs, off))
    (h : processDatagram data resolver fuel = some resp) :
    resp.questions.length = qs.length ∧
    (∀ i : Nat, (resp.questions[i]?).map DNSQuestion.name =
      (qs[i]?).map DNSQuestion.name) ∧
    ∀ q ∈ resp.questions, q.type = 1 ∧ q.qclass = 1 := by
  unfold processDatagram at h
  simp only [hq, Option.some.injEq] at h
  subst h
  refine ⟨by simp [buildResponse], ?_, ?_⟩
  · intro i
    simp only [buildResponse, List.getElem?_map, Option.map_map]
    cases qs[i]? <;> rfl
  · intro q hmem
    simp only [buildResponse, List.mem_map] at hmem
    obtain ⟨q0, -, rfl⟩ := hmem
    exact ⟨rfl, rfl⟩

/-- Closed witness for `c5_question_echo_amended` on a one-question request
for "a" with TYPE 2, CLASS 3. -/
theorem c5_question_echo_amended_witness :
    (parseQuestions [0, 0, 0, 0, 0, 1, 0, 0, 0, 0, 0, 0, 1, 97, 0, 0, 2, 0, 3]
        5 12
        (DNSHeader.parse
          [0, 0, 0, 0, 0, 1, 0, 0, 0, 0, 0, 0, 1, 97, 0, 0, 2, 0, 3]).qdcount =
      some ([⟨[97], 2, 3⟩], 19)) ∧
    (processDatagram [0, 0, 0, 0, 0, 1, 0, 0, 0, 0, 0, 0, 1, 97, 0, 0, 2, 0, 3]
        none 5 =
      some ⟨⟨0, 32768, 1, 1, 0, 0⟩, [⟨[97], 1, 1⟩],
        [⟨[97], 1, 1, 60, 4, [8, 8, 8, 8]⟩]⟩) ∧
    ((⟨⟨0, 32768, 1, 1, 0, 0⟩, [⟨[97], 1, 1⟩],
        [⟨[97], 1, 1, 60, 4, [8, 8, 8, 8]⟩]⟩ : DNSMessage).questions.length =
      [(⟨[97], 2, 3⟩ : DNSQuestion)].length ∧
    (∀ i : Nat, ((⟨⟨0, 32768, 1, 1, 0, 0⟩, [⟨[97], 1, 1⟩],
        [⟨[97], 1, 1, 60, 4, [8, 8, 8, 8]⟩]⟩ : DNSMessage).questions[i]?).map
          DNSQuestion.name =
      ([(⟨[97], 2, 3⟩ : DNSQuestion)][i]?).map DNSQuestion.name) ∧
    ∀ q ∈ (⟨⟨0, 32768, 1, 1, 0, 0⟩, [⟨[97], 1, 1⟩],
        [⟨[97], 1, 1, 60, 4, [8, 8, 8, 8]⟩]⟩ : DNSMessage).questions,
      q.type = 1 ∧ q.qclass = 1) :=
  ⟨rfl, rfl,
   c5_question_echo_amended
     [0, 0, 0, 0, 0, 1, 0, 0, 0, 0, 0, 0, 1, 97, 0, 0, 2, 0, 3] none 5
     [⟨[97], 2, 3⟩] 19 _ rfl rfl⟩

/-- C9 — Stub mode: whenever the main loop processes a request with no
upstream resolver configured (`resolver = none`), the response holds one
answer per response question, each answer's name equal to the matching
question's name, and every answer has `type = 1`, `class = 1`, `ttl = 60`,
`rdlength = 4` and `rdata = [8, 8, 8, 8]`. -/
theorem c9_stub_mode (data : List Nat) (fuel : Nat) (resp : DNSMessage)
    (h : processDatagram data none fuel = some resp) :
    resp.answers.length = resp.questions.length ∧
    (∀ i : Nat, (resp.answers[i]?).map DNSAnswer.name =
      (resp.questions[i]?).map DNSQuestion.name) ∧
    ∀ a ∈ resp.answers, a.type = 1 ∧ a.aclass = 1 ∧ a.ttl = 60 ∧
      a.rdlength = 4 ∧ a.rdata = [8, 8, 8, 8] := by
  unfold processDatagram at h
  cases hq : parseQuestions data fuel 12 (DNSHeader.parse data).qdcount with
  | none => rw [hq] at h; cases h
  | some p =>
    obtain ⟨qs, off⟩ := p
    simp only [hq, Option.some.injEq] at h
    subst h
    refine ⟨by simp [buildResponse], ?_, ?_⟩
    · intro i
      simp only [buildResponse, List.getElem?_map, Option.map_map]
      cases qs[i]? <;> rfl
    · intro a hmem
      simp only [buildResponse, List.mem_map] at hmem
      obtain ⟨q0, -, rfl⟩ := hmem
      exact ⟨rfl, rfl, rfl, rfl, rfl⟩

/-- Closed witness for `c9_stub_mode` on a one-question request for "a". -/
theorem c9_stub_mode_witness :
    (processDatagram [0, 0, 0, 0, 0, 1, 0, 0, 0, 0, 0, 0, 1, 97, 0, 0, 1, 0, 1]
        none 5 =
      some ⟨⟨0, 32768, 1, 1, 0, 0⟩, [⟨[97], 1, 1⟩],
        [⟨[97], 1, 1, 60, 4, [8, 8, 8, 8]⟩]⟩) ∧
    ((⟨⟨0, 32768, 1, 1, 0, 0⟩, [⟨[97], 1, 1⟩],
        [⟨[97], 1, 1, 60, 4, [8, 8, 8, 8]⟩]⟩ : DNSMessage).answers.length =
      (⟨⟨0, 32768, 1, 1, 0, 0⟩, [⟨[97], 1, 1⟩],
        [⟨[97], 1, 1, 60, 4, [8, 8, 8, 8]⟩]⟩ : DNSMessage).questions.length ∧
    (∀ i : Nat, ((⟨⟨0, 32768, 1, 1, 0, 0⟩, [⟨[97], 1, 1⟩],
        [⟨[97], 1, 1, 60, 4, [8, 8, 8, 8]⟩]⟩ : DNSMessage).answers[i]?).map
          DNSAnswer.name =
      ((⟨⟨0, 32768, 1, 1, 0, 0⟩, [⟨[97], 1, 1⟩],
        [⟨[97], 1, 1, 60, 4, [8, 8, 8, 8]⟩]⟩ : DNSMessage).questions[i]?).map
          DNSQuestion.name) ∧
    ∀ a ∈ (⟨⟨0, 32768, 1, 1, 0, 0⟩, [⟨[97], 1, 1⟩],
        [⟨[97], 1, 1, 60, 4, [8, 8, 8, 8]⟩]⟩ : DNSMessage).answers,
      a.type = 1 ∧ a.aclass = 1 ∧ a.ttl = 60 ∧ a.rdlength = 4 ∧
        a.rdata = [8, 8, 8, 8]) :=
  ⟨rfl,
   c9_stub_mode [0, 0, 0, 0, 0, 1, 0, 0, 0, 0, 0, 0, 1, 97, 0, 0, 1, 0, 1]
     5 _ rfl⟩

/-- C10 — rdlength consistency: every `DNSAnswer` produced by
`DNSAnswer.parse` carries exactly `rdlength` bytes in `rdata`
(`rdata.size() == rdlength`), so re-serializing it writes an RDLENGTH field
(the two bytes before the rdata) whose value is the actual number of rdata
bytes emitted. -/
theorem c10_rdlength_consistency (data : List Nat) (offset fuel : Nat)
    (ans : DNSAnswer) (off : Nat)
    (h : DNSAnswer.parse data offset fuel = some (ans, off)) :
    ans.rdata.length = ans.rdlength ∧
    DNSAnswer.serialize ans =
      DNSQuestion.encodeDomainName ans.name ++
        [ans.type / 256 % 256, ans.type % 256,
         ans.aclass / 256 % 256, ans.aclass % 256,
         ans.ttl / 2 ^ 24 % 256, ans.ttl / 2 ^ 16 % 256,
         ans.ttl / 256 % 256, ans.ttl % 256,
         ans.rdata.length / 256 % 256, ans.rdata.length % 256] ++
        ans.rdata := by
  unfold DNSAnswer.parse at h
  cases hn : DNSQuestion.parseDomainName data offset fuel with
  | none => rw [hn] at h; cases h
  | some p =>
    obtain ⟨nm, off1⟩ := p
    simp only [hn, Option.some.injEq, Prod.mk.injEq] at h
    obtain ⟨h1, -⟩ := h
    have hlen : ans.rdata.length = ans.rdlength := by
      rw [← h1]
      simp [readBytes_length]
    refine ⟨hlen, ?_⟩
    rw [hlen, DNSAnswer.serialize]

/-- Closed witness for `c10_rdlength_consistency` on a concrete A record
(root name, TTL 60, rdata 8.8.8.8). -/
theorem c10_rdlength_consistency_witness :
    (DNSAnswer.parse [0, 0, 1, 0, 1, 0, 0, 0, 60, 0, 4, 8, 8, 8, 8] 0 1 =
      some (⟨[], 1, 1, 60, 4, [8, 8, 8, 8]⟩, 15)) ∧
    ((⟨[], 1, 1, 60, 4, [8, 8, 8, 8]⟩ : DNSAnswer).rdata.length =
      (⟨[], 1, 1, 60, 4, [8, 8, 8, 8]⟩ : DNSAnswer).rdlength ∧
    DNSAnswer.serialize (⟨[], 1, 1, 60, 4, [8, 8, 8, 8]⟩ : DNSAnswer) =
      DNSQuestion.encodeDomainName [] ++
        [1 / 256 % 256, 1 % 256, 1 / 256 % 256, 1 % 256,
         60 / 2 ^ 24 % 256, 60 / 2 ^ 16 % 256, 60 / 256 % 256, 60 % 256,
         4 / 256 % 256, 4 % 256] ++ [8, 8, 8, 8]) :=
  ⟨rfl,
   c10_rdlength_consistency [0, 0, 1, 0, 1, 0, 0, 0, 60, 0, 4, 8, 8, 8, 8]
     0 1 ⟨[], 1, 1, 60, 4, [8, 8, 8, 8]⟩ 15 rfl⟩
